import Mathlib

/-!
Shallow embedding of the chunk-streaming and procedural-terrain subsystem of
the bevy_game repository (src/bevy-project/src/client.rs).

Modelling conventions:
- machine floats (f32/f64) are modelled by exact rationals;
- engine entity handles are natural numbers allocated from a counter, in the
  order the corresponding spawn commands are issued by the source;
- the external Perlin-noise library (the noise crate) is modelled by an
  uninterpreted sampling function from a noise configuration and a 3D point
  to a value, mirroring BasicMulti.get;
- the HashMap of loaded chunks is modelled by an association list whose key
  list carries the no-duplicate invariant of a hash map; HashMap and HashSet
  iteration order (unspecified in Rust) is modelled by the in-order list of
  entries, which no claim depends on;
- Bevy change detection on the WorldPosition resource is modelled by an
  explicit boolean flag fed to manage_chunks, true exactly when the tracked
  resource was written since the previous run.
-/

/-- Chunk side length in world units, client.rs line 33. -/
def CHUNK_SIZE : ℚ := 50

/-- Render distance in chunks, client.rs line 34. -/
def RENDER_DISTANCE : Int := 3

/-- Water level in world units, client.rs line 35. -/
def WATER_LEVEL : ℚ := 1

/-- An RGBA color, source type [f32; 4]. -/
abbrev Color : Type := ℚ × ℚ × ℚ × ℚ

/-- Sandy beach color, client.rs line 51. -/
def sand_color : Color := (0.8, 0.7, 0.4, 1.0)

/-- Grass color, client.rs line 52. -/
def grass_color : Color := (0.3, 0.6, 0.2, 1.0)

/-- Rock color, client.rs line 53. -/
def rock_color : Color := (0.5, 0.4, 0.3, 1.0)

/-- Snow color, client.rs line 54. -/
def snow_color : Color := (0.9, 0.9, 0.9, 1.0)

/-- Rust f32::clamp(0.0, 1.0): below the interval gives 0, above gives 1. -/
def clamp01 (t : ℚ) : ℚ := if t < 0 then 0 else if 1 < t then 1 else t

/-- Component-wise linear interpolation between two colors with the factor
clamped to [0, 1], client.rs lines 38-46. -/
def lerp_color (color1 color2 : Color) (t : ℚ) : Color :=
  let t := clamp01 t
  (color1.1 + (color2.1 - color1.1) * t,
   color1.2.1 + (color2.2.1 - color1.2.1) * t,
   color1.2.2.1 + (color2.2.2.1 - color1.2.2.1) * t,
   color1.2.2.2 + (color2.2.2.2 - color1.2.2.2) * t)

/-- Height-to-color ramp of the terrain mesher, client.rs lines 49-76. -/
def get_terrain_color (height : ℚ) : Color :=
  let sand_level : ℚ := 0.3
  let grass_level : ℚ := 1.5
  let rock_level : ℚ := 3.0
  let snow_level : ℚ := 4.0
  if height < sand_level then
    sand_color
  else if height < grass_level then
    lerp_color sand_color grass_color ((height - sand_level) / (grass_level - sand_level))
  else if height < rock_level then
    lerp_color grass_color rock_color ((height - grass_level) / (rock_level - grass_level))
  else if height < snow_level then
    lerp_color rock_color snow_color ((height - rock_level) / (snow_level - rock_level))
  else
    snow_color

/-- Configuration of one BasicMulti Perlin fractal generator: seed together
with the values passed to set_octaves, set_frequency, set_persistence and
set_lacunarity. -/
structure NoiseConfig where
  seed : Nat
  octaves : Nat
  frequency : ℚ
  persistence : ℚ
  lacunarity : ℚ
deriving DecidableEq

/-- The sampling entry point of the noise library (BasicMulti.get on a 3D point),
left uninterpreted: the library is an external dependency of the repository. -/
abbrev NoiseGet : Type := NoiseConfig → ℚ × ℚ × ℚ → ℚ

/-- Main noise layer built in generate_water_mesh, client.rs lines 194-198. -/
def water_main_noise : NoiseConfig := ⟨1, 8, 0.05, 0.6, 2.0⟩

/-- Detail noise layer built in generate_water_mesh, client.rs lines 200-204. -/
def water_detail_noise : NoiseConfig := ⟨2, 3, 0.03, 0.4, 2.0⟩

/-- Terrain height as sampled inside generate_water_mesh, client.rs
lines 220-222. -/
def water_terrain_height (g : NoiseGet) (world_x world_z : ℚ) : ℚ :=
  g water_main_noise (world_x, world_z, 42.0) * 22.0 +
    g water_detail_noise (world_x, world_z, 100.0) * 3.0

/-- Main noise layer built in spawn_chunk, client.rs lines 278-282. -/
def spawn_main_noise : NoiseConfig := ⟨1, 8, 0.05, 0.6, 2.0⟩

/-- Detail noise layer built in spawn_chunk, client.rs lines 284-288. -/
def spawn_detail_noise : NoiseConfig := ⟨2, 3, 0.03, 0.4, 2.0⟩

/-- Terrain height as computed inside spawn_chunk when deforming the plane
mesh, client.rs lines 298-301. -/
def spawn_terrain_height (g : NoiseGet) (world_x world_z : ℚ) : ℚ :=
  g spawn_main_noise (world_x, world_z, 42.0) * 22.0 +
    g spawn_detail_noise (world_x, world_z, 100.0) * 3.0

/-- The flat water plane produced by generate_water_mesh: Plane3d sized
CHUNK_SIZE x CHUNK_SIZE with the given subdivision count, client.rs
lines 240-245. -/
structure WaterMesh where
  size_x : ℚ
  size_z : ℚ
  subdivisions : Nat
deriving DecidableEq

/-- The (x, z) sample indices of generate_water_mesh in loop order: z is the
outer loop, x the inner loop, both running over 0..=subdivisions,
client.rs lines 211-212. -/
def waterSamplePoints (subdivisions : Nat) : List (Nat × Nat) :=
  (List.range (subdivisions + 1)).flatMap fun z =>
    (List.range (subdivisions + 1)).map fun x => (x, z)

/-- Terrain height at one water sample index: the local grid coordinate
x * step - half_size shifted by the world offset of the chunk, client.rs
lines 207-222. -/
def waterSampleHeight (g : NoiseGet) (world_offset_x world_offset_z : ℚ)
    (subdivisions : Nat) (p : Nat × Nat) : ℚ :=
  let step := CHUNK_SIZE / (subdivisions : ℚ)
  let half_size := CHUNK_SIZE / 2
  let local_x := (p.1 : ℚ) * step - half_size
  let local_z := (p.2 : ℚ) * step - half_size
  water_terrain_height g (local_x + world_offset_x) (local_z + world_offset_z)

/-- The double sampling loop with its early break: the first sample index in
loop order whose terrain height is strictly below WATER_LEVEL, client.rs
lines 206-233. -/
def findWaterSample (g : NoiseGet) (ox oz : ℚ) (s : Nat) :
    List (Nat × Nat) → Option (Nat × Nat)
  | [] => none
  | p :: rest =>
    if waterSampleHeight g ox oz s p < WATER_LEVEL then some p
    else findWaterSample g ox oz s rest

/-- generate_water_mesh, client.rs lines 186-248: scan the sample grid for a
point below water level; if none is found return none, otherwise a flat
chunk-sized plane mesh. -/
def generate_water_mesh (g : NoiseGet) (world_offset_x world_offset_z : ℚ)
    (subdivisions : Nat) : Option WaterMesh :=
  if (findWaterSample g world_offset_x world_offset_z subdivisions
      (waterSamplePoints subdivisions)).isSome then
    some ⟨CHUNK_SIZE, CHUNK_SIZE, subdivisions⟩
  else
    none

/-- One record of the chunk registry: the terrain entity handle and the
optional water entity handle, client.rs line 22. -/
structure ChunkRecord where
  terrain_entity : Nat
  water_entity : Option Nat
deriving DecidableEq

/-- The ChunkManager resource, client.rs lines 20-25. The HashMap is
modelled by an association list with no duplicate keys. -/
structure ChunkManager where
  loaded_chunks : List ((Int × Int) × ChunkRecord)
  chunk_size : ℚ
  render_distance : Int

/-- The WorldPosition resource, client.rs lines 14-18. -/
structure WorldPosition where
  chunk_x : Int
  chunk_z : Int
deriving DecidableEq

/-- The pieces of engine state the chunk systems read and write: both
resources plus the entity allocator of Commands. -/
structure GameState where
  chunk_manager : ChunkManager
  world_pos : WorldPosition
  next_entity : Nat

/-- HashMap.get on the association list modelling loaded_chunks. -/
def lookupChunk : List ((Int × Int) × ChunkRecord) → Int × Int → Option ChunkRecord
  | [], _ => none
  | e :: rest, p => if e.1 = p then some e.2 else lookupChunk rest p

/-- HashMap.contains_key on the association list modelling loaded_chunks. -/
def containsChunk (m : List ((Int × Int) × ChunkRecord)) (p : Int × Int) : Bool :=
  (lookupChunk m p).isSome

/-- The Rust inclusive range lo..=hi as a list of integers. -/
def intRange (lo hi : Int) : List Int :=
  (List.range (hi + 1 - lo).toNat).map fun i : Nat => lo + (i : Int)

/-- The required chunk set of manage_chunks, client.rs lines 143-148: the
nested loops over x in cx-rd..=cx+rd and z in cz-rd..=cz+rd. -/
def requiredChunks (cx cz rd : Int) : List (Int × Int) :=
  (intRange (cx - rd) (cx + rd)).flatMap fun x =>
    (intRange (cz - rd) (cz + rd)).map fun z => (x, z)

/-- spawn_chunk, client.rs lines 251-339, restricted to the state the
registry claims observe: the terrain entity is spawned first, then the water
entity exactly when generate_water_mesh (called with subdivisions = 20 at
the world offset of the chunk) returns a mesh. Returns the pair stored in
loaded_chunks and the updated entity allocator. -/
def spawn_chunk (g : NoiseGet) (next_entity : Nat) (chunk_x chunk_z : Int) :
    ChunkRecord × Nat :=
  let world_offset_x := (chunk_x : ℚ) * CHUNK_SIZE
  let world_offset_z := (chunk_z : ℚ) * CHUNK_SIZE
  let terrain_entity := next_entity
  match generate_water_mesh g world_offset_x world_offset_z 20 with
  | some _ => (⟨terrain_entity, some (terrain_entity + 1)⟩, terrain_entity + 2)
  | none => (⟨terrain_entity, none⟩, terrain_entity + 1)

/-- The insertion loop of manage_chunks, client.rs lines 169-182: for each
required coordinate not yet in the registry, spawn the chunk and insert the
returned entity pair. Returns the updated map, the updated entity allocator
and the list of coordinates for which spawn_chunk was invoked. -/
def addMissing (g : NoiseGet) :
    List (Int × Int) → List ((Int × Int) × ChunkRecord) → Nat →
    List ((Int × Int) × ChunkRecord) × Nat × List (Int × Int)
  | [], m, n => (m, n, [])
  | p :: rest, m, n =>
    if containsChunk m p then addMissing g rest m n
    else
      let sc := spawn_chunk g n p.1 p.2
      let res := addMissing g rest (m ++ [(p, sc.1)]) sc.2
      (res.1, res.2.1, p :: res.2.2)

/-- manage_chunks, client.rs lines 124-183. The world_pos_changed flag
models Res.is_changed on WorldPosition, and the early return on its
negation models lines 134-136. Returns the updated state, the list of
coordinates spawned, and the list of coordinates removed (despawned). -/
def manage_chunks (g : NoiseGet) (world_pos_changed : Bool) (s : GameState) :
    GameState × List (Int × Int) × List (Int × Int) :=
  if !world_pos_changed then (s, [], [])
  else
    let required := requiredChunks s.world_pos.chunk_x s.world_pos.chunk_z
      s.chunk_manager.render_distance
    let chunks_to_remove :=
      (s.chunk_manager.loaded_chunks.filter fun e => !decide (e.1 ∈ required)).map
        Prod.fst
    let remaining := s.chunk_manager.loaded_chunks.filter fun e => decide (e.1 ∈ required)
    let res := addMissing g required remaining s.next_entity
    (GameState.mk { s.chunk_manager with loaded_chunks := res.1 }
      s.world_pos res.2.1,
      res.2.2, chunks_to_remove)

/-- update_world_position, client.rs lines 107-121: when a camera transform
is available, floor-divide its x and z by CHUNK_SIZE and write the resource
only when the computed coordinate differs from the stored one. Returns the
new state and whether the resource was written. -/
def update_world_position (camera : Option (ℚ × ℚ)) (s : GameState) :
    GameState × Bool :=
  match camera with
  | none => (s, false)
  | some c =>
    let new_chunk_x := Int.floor (c.1 / CHUNK_SIZE)
    let new_chunk_z := Int.floor (c.2 / CHUNK_SIZE)
    if s.world_pos.chunk_x ≠ new_chunk_x ∨ s.world_pos.chunk_z ≠ new_chunk_z then
      ({ s with world_pos := ⟨new_chunk_x, new_chunk_z⟩ }, true)
    else
      (s, false)

theorem mem_intRange {lo hi y : Int} : y ∈ intRange lo hi ↔ lo ≤ y ∧ y ≤ hi := by
  simp only [intRange, List.mem_map, List.mem_range]
  constructor
  · rintro ⟨i, hi', rfl⟩
    omega
  · rintro ⟨h1, h2⟩
    exact ⟨(y - lo).toNat, by omega, by omega⟩

theorem length_intRange (lo hi : Int) : (intRange lo hi).length = (hi + 1 - lo).toNat := by
  rw [intRange, List.length_map, List.length_range]

theorem nodup_intRange (lo hi : Int) : (intRange lo hi).Nodup := by
  refine List.Nodup.map ?_ (List.nodup_range _)
  intro a b hab
  dsimp only at hab
  omega

theorem requiredChunks_eq_product (cx cz rd : Int) :
    requiredChunks cx cz rd =
      (intRange (cx - rd) (cx + rd)).product (intRange (cz - rd) (cz + rd)) := rfl

theorem mem_requiredChunks {cx cz rd : Int} {p : Int × Int} :
    p ∈ requiredChunks cx cz rd ↔
      cx - rd ≤ p.1 ∧ p.1 ≤ cx + rd ∧ cz - rd ≤ p.2 ∧ p.2 ≤ cz + rd := by
  rcases p with ⟨x, z⟩
  rw [requiredChunks_eq_product]
  have hp : (x, z) ∈ (intRange (cx - rd) (cx + rd)).product (intRange (cz - rd) (cz + rd)) ↔
      x ∈ intRange (cx - rd) (cx + rd) ∧ z ∈ intRange (cz - rd) (cz + rd) :=
    List.mem_product
  rw [hp, mem_intRange, mem_intRange]
  tauto

theorem nodup_requiredChunks (cx cz rd : Int) : (requiredChunks cx cz rd).Nodup := by
  rw [requiredChunks_eq_product]
  exact (nodup_intRange _ _).product (nodup_intRange _ _)

theorem length_requiredChunks {cx cz rd : Int} (h : 0 ≤ rd) :
    ((requiredChunks cx cz rd).length : Int) = (2 * rd + 1) ^ 2 := by
  rw [requiredChunks_eq_product]
  have hl : ((intRange (cx - rd) (cx + rd)).product (intRange (cz - rd) (cz + rd))).length =
      (intRange (cx - rd) (cx + rd)).length * (intRange (cz - rd) (cz + rd)).length :=
    List.length_product _ _
  rw [hl, length_intRange, length_intRange]
  have h1 : cx + rd + 1 - (cx - rd) = 2 * rd + 1 := by ring
  have h2 : cz + rd + 1 - (cz - rd) = 2 * rd + 1 := by ring
  rw [h1, h2, Int.natCast_mul, Int.toNat_of_nonneg (by omega)]
  ring

theorem lookupChunk_isSome_iff {m : List ((Int × Int) × ChunkRecord)} {p : Int × Int} :
    (lookupChunk m p).isSome = true ↔ p ∈ m.map Prod.fst := by
  induction m with
  | nil => simp [lookupChunk]
  | cons e rest ih =>
    by_cases h : e.1 = p
    · simp [lookupChunk, h]
    · simp only [lookupChunk, if_neg h, List.map_cons, List.mem_cons, ih]
      constructor
      · exact Or.inr
      · rintro (h1 | h2)
        · exact absurd h1.symm h
        · exact h2

theorem containsChunk_eq_decide_mem (m : List ((Int × Int) × ChunkRecord)) (p : Int × Int) :
    containsChunk m p = decide (p ∈ m.map Prod.fst) := by
  by_cases h : p ∈ m.map Prod.fst
  · rw [containsChunk, lookupChunk_isSome_iff.mpr h, decide_eq_true h]
  · rw [decide_eq_false h]
    rw [containsChunk]
    by_contra hc
    rw [Bool.not_eq_false] at hc
    exact h (lookupChunk_isSome_iff.mp hc)

theorem lookupChunk_append_left {m1 : List ((Int × Int) × ChunkRecord)} {p : Int × Int}
    (m2 : List ((Int × Int) × ChunkRecord)) (h : (lookupChunk m1 p).isSome = true) :
    lookupChunk (m1 ++ m2) p = lookupChunk m1 p := by
  induction m1 with
  | nil => simp [lookupChunk] at h
  | cons e rest ih =>
    by_cases he : e.1 = p
    · simp [lookupChunk, he]
    · rw [List.cons_append, lookupChunk, if_neg he, lookupChunk, if_neg he]
      exact ih (by rwa [lookupChunk, if_neg he] at h)

theorem containsChunk_append_left {m1 : List ((Int × Int) × ChunkRecord)} {p : Int × Int}
    (m2 : List ((Int × Int) × ChunkRecord)) (h : containsChunk m1 p = true) :
    containsChunk (m1 ++ m2) p = true := by
  rw [containsChunk, lookupChunk_append_left m2 h]
  exact h

theorem containsChunk_append_singleton_ne {m : List ((Int × Int) × ChunkRecord)}
    {p q : Int × Int} (r : ChunkRecord) (h : q ≠ p) :
    containsChunk (m ++ [(p, r)]) q = containsChunk m q := by
  rw [containsChunk_eq_decide_mem, containsChunk_eq_decide_mem]
  apply decide_eq_decide.mpr
  simp [h]

theorem map_fst_filter_mem (m : List ((Int × Int) × ChunkRecord))
    (req : List (Int × Int)) :
    ((m.filter fun e => decide (e.1 ∈ req)).map Prod.fst) =
      (m.map Prod.fst).filter fun k => decide (k ∈ req) := by
  induction m with
  | nil => rfl
  | cons e rest ih =>
    rw [List.filter_cons, List.map_cons, List.filter_cons]
    by_cases hf : e.1 ∈ req
    · rw [if_pos (by simpa using hf), if_pos (by simpa using hf), List.map_cons, ih]
    · rw [if_neg (by simpa using hf), if_neg (by simpa using hf), ih]

theorem map_fst_filter_not_mem (m : List ((Int × Int) × ChunkRecord))
    (req : List (Int × Int)) :
    ((m.filter fun e => !decide (e.1 ∈ req)).map Prod.fst) =
      (m.map Prod.fst).filter fun k => !decide (k ∈ req) := by
  induction m with
  | nil => rfl
  | cons e rest ih =>
    rw [List.filter_cons, List.map_cons, List.filter_cons]
    by_cases hf : e.1 ∈ req
    · rw [if_neg (by simpa using hf), if_neg (by simpa using hf), ih]
    · rw [if_pos (by simpa using hf), if_pos (by simpa using hf), List.map_cons, ih]

theorem lookupChunk_filter_mem {m : List ((Int × Int) × ChunkRecord)}
    {req : List (Int × Int)} {p : Int × Int} (hp : p ∈ req) :
    lookupChunk (m.filter fun e => decide (e.1 ∈ req)) p = lookupChunk m p := by
  induction m with
  | nil => rfl
  | cons e rest ih =>
    by_cases he : e.1 = p
    · rw [List.filter_cons, if_pos (by rw [he]; simpa using hp), lookupChunk,
        if_pos he, lookupChunk, if_pos he]
    · rw [lookupChunk, if_neg he, List.filter_cons]
      by_cases hf : e.1 ∈ req
      · rw [if_pos (by simpa using hf), lookupChunk, if_neg he]
        exact ih
      · rw [if_neg (by simpa using hf)]
        exact ih

theorem addMissing_map_fst (g : NoiseGet) :
    ∀ (ps : List (Int × Int)) (m : List ((Int × Int) × ChunkRecord)) (n : Nat),
      (addMissing g ps m n).1.map Prod.fst =
        m.map Prod.fst ++ (addMissing g ps m n).2.2 := by
  intro ps
  induction ps with
  | nil => intro m n; simp [addMissing]
  | cons p rest ih =>
    intro m n
    by_cases h : containsChunk m p = true
    · simp only [addMissing, if_pos h]
      exact ih m n
    · simp only [addMissing, if_neg h]
      rw [ih]
      simp

theorem addMissing_lookup_of_contains (g : NoiseGet) :
    ∀ (ps : List (Int × Int)) (m : List ((Int × Int) × ChunkRecord)) (n : Nat)
      (p : Int × Int), containsChunk m p = true →
      lookupChunk (addMissing g ps m n).1 p = lookupChunk m p := by
  intro ps
  induction ps with
  | nil => intro m n p _; rfl
  | cons q rest ih =>
    intro m n p hp
    by_cases hq : containsChunk m q = true
    · simp only [addMissing, if_pos hq]
      exact ih m n p hp
    · simp only [addMissing, if_neg hq]
      rw [ih _ _ p (containsChunk_append_left _ hp)]
      exact lookupChunk_append_left _ hp

theorem addMissing_spawned (g : NoiseGet) :
    ∀ (ps : List (Int × Int)) (m : List ((Int × Int) × ChunkRecord)) (n : Nat),
      ps.Nodup →
      (addMissing g ps m n).2.2 = ps.filter fun p => !containsChunk m p := by
  intro ps
  induction ps with
  | nil => intro m n _; rfl
  | cons p rest ih =>
    intro m n hnd
    rw [List.nodup_cons] at hnd
    by_cases h : containsChunk m p = true
    · simp only [addMissing, if_pos h, List.filter_cons, h, Bool.not_true,
        Bool.false_eq_true, if_false]
      exact ih m n hnd.2
    · have hb : containsChunk m p = false := by simpa using h
      simp only [addMissing, if_neg h, List.filter_cons, hb, Bool.not_false, if_true]
      rw [ih _ _ hnd.2]
      apply congrArg (List.cons p)
      apply List.filter_congr
      intro q hq
      have hqp : q ≠ p := fun e => hnd.1 (e ▸ hq)
      rw [containsChunk_append_singleton_ne _ hqp]

theorem addMissing_contains (g : NoiseGet) (ps : List (Int × Int))
    (m : List ((Int × Int) × ChunkRecord)) (n : Nat) (hnd : ps.Nodup) (p : Int × Int) :
    containsChunk (addMissing g ps m n).1 p = true ↔
      containsChunk m p = true ∨ p ∈ ps := by
  rw [containsChunk_eq_decide_mem, decide_eq_true_eq, addMissing_map_fst,
    addMissing_spawned g ps m n hnd, List.mem_append, List.mem_filter,
    containsChunk_eq_decide_mem, decide_eq_true_eq]
  constructor
  · rintro (h1 | ⟨h2, _⟩)
    · exact Or.inl h1
    · exact Or.inr h2
  · rintro (h1 | h2)
    · exact Or.inl h1
    · by_cases hm : p ∈ m.map Prod.fst
      · exact Or.inl hm
      · refine Or.inr ⟨h2, ?_⟩
        rw [decide_eq_false hm]
        rfl

theorem addMissing_nodup_keys (g : NoiseGet) (ps : List (Int × Int))
    (m : List ((Int × Int) × ChunkRecord)) (n : Nat) (hnd : ps.Nodup)
    (hm : (m.map Prod.fst).Nodup) :
    ((addMissing g ps m n).1.map Prod.fst).Nodup := by
  rw [addMissing_map_fst, addMissing_spawned g ps m n hnd, List.nodup_append]
  refine ⟨hm, hnd.filter _, ?_⟩
  intro a ha hb
  rw [List.mem_filter] at hb
  have hc : containsChunk m a = true := by
    rw [containsChunk_eq_decide_mem, decide_eq_true ha]
  rw [hc] at hb
  simp at hb

/-- A reconciliation run gated out by change detection is the identity. -/
theorem manage_chunks_not_changed (g : NoiseGet) (s : GameState) :
    manage_chunks g false s = (s, [], []) := rfl

/-- A noise sampler returning a constant height of zero, used to instantiate
theorems at a concrete noise function. -/
def zeroNoise : NoiseGet := fun _ _ => 0

/-- A concrete game state: empty registry, chunk size 50, render distance 1,
viewer at chunk (0, 0), no entities allocated yet. -/
def sampleState : GameState :=
  GameState.mk (ChunkManager.mk [] CHUNK_SIZE 1) (WorldPosition.mk 0 0) 0

/-- Claim C1: after a run of the reconciliation step that executes, the
registry contains a coordinate exactly when it lies in the render-distance
window around the chunk coordinate of the viewer, and the registry keys hold no
duplicate coordinate. The hypothesis is the hash-map invariant on the input
registry. -/
theorem manage_chunks_residency (g : NoiseGet) (s : GameState)
    (hnd : (s.chunk_manager.loaded_chunks.map Prod.fst).Nodup) :
    (∀ p : Int × Int,
      containsChunk (manage_chunks g true s).1.chunk_manager.loaded_chunks p = true ↔
        (s.world_pos.chunk_x - s.chunk_manager.render_distance ≤ p.1 ∧
          p.1 ≤ s.world_pos.chunk_x + s.chunk_manager.render_distance ∧
          s.world_pos.chunk_z - s.chunk_manager.render_distance ≤ p.2 ∧
          p.2 ≤ s.world_pos.chunk_z + s.chunk_manager.render_distance)) ∧
    ((manage_chunks g true s).1.chunk_manager.loaded_chunks.map Prod.fst).Nodup := by
  simp only [manage_chunks, Bool.not_true, Bool.false_eq_true, if_false]
  constructor
  · intro p
    rw [addMissing_contains _ _ _ _ (nodup_requiredChunks _ _ _) p, ← mem_requiredChunks]
    constructor
    · rintro (h1 | h2)
      · rw [containsChunk_eq_decide_mem, decide_eq_true_eq, map_fst_filter_mem,
          List.mem_filter] at h1
        exact of_decide_eq_true h1.2
      · exact h2
    · intro h
      exact Or.inr h
  · refine addMissing_nodup_keys _ _ _ _ (nodup_requiredChunks _ _ _) ?_
    rw [map_fst_filter_mem]
    exact hnd.filter _

/-- Witness for claim C1 at the concrete empty registry with render
distance 1 and viewer chunk (0, 0). -/
theorem manage_chunks_residency_witness :
    (sampleState.chunk_manager.loaded_chunks.map Prod.fst).Nodup ∧
    ((manage_chunks zeroNoise true sampleState).1.chunk_manager.loaded_chunks.map
      Prod.fst).Nodup :=
  ⟨by decide, (manage_chunks_residency zeroNoise sampleState (by decide)).2⟩

/-- Claim C2: for a render distance R at least 0 the required set is the
Cartesian product of the two closed integer intervals of radius R around the
viewer chunk coordinate, holds no duplicate, and has (2R+1)^2 elements. -/
theorem requiredChunks_spec (cx cz R : Int) (hR : 0 ≤ R) :
    ((requiredChunks cx cz R).length : Int) = (2 * R + 1) ^ 2 ∧
    (requiredChunks cx cz R).Nodup ∧
    ∀ p : Int × Int, p ∈ requiredChunks cx cz R ↔
      (cx - R ≤ p.1 ∧ p.1 ≤ cx + R) ∧ (cz - R ≤ p.2 ∧ p.2 ≤ cz + R) := by
  refine ⟨length_requiredChunks hR, nodup_requiredChunks _ _ _, ?_⟩
  intro p
  rw [mem_requiredChunks]
  tauto

/-- Witness for claim C2 at render distance 1. -/
theorem requiredChunks_spec_witness :
    (0 : Int) ≤ 1 ∧ ((requiredChunks 0 0 1).length : Int) = (2 * 1 + 1) ^ 2 :=
  ⟨by decide, (requiredChunks_spec 0 0 1 (by decide)).1⟩

/-- Claim C7: the terrain height sampled by the water mesher coincides with
the terrain height computed by the terrain mesher for every noise sampler
and every world point, and the four fractal generators carry exactly the
constants stated in the specification. -/
theorem water_height_eq_spawn_height :
    (∀ (g : NoiseGet) (x z : ℚ), water_terrain_height g x z = spawn_terrain_height g x z) ∧
    water_main_noise = NoiseConfig.mk 1 8 0.05 0.6 2.0 ∧
    water_detail_noise = NoiseConfig.mk 2 3 0.03 0.4 2.0 ∧
    spawn_main_noise = NoiseConfig.mk 1 8 0.05 0.6 2.0 ∧
    spawn_detail_noise = NoiseConfig.mk 2 3 0.03 0.4 2.0 :=
  ⟨fun _ _ _ => rfl, rfl, rfl, rfl, rfl⟩

/-- Claim C9: without a tracked camera the viewer tracker leaves the state
unchanged and reports no write. -/
theorem update_world_position_no_camera (s : GameState) :
    update_world_position none s = (s, false) := rfl

/-- Claim C10: a reconciliation run never changes chunk_size or
render_distance and never writes the WorldPosition resource; the only field
it mutates is loaded_chunks. -/
theorem manage_chunks_frame (g : NoiseGet) (world_pos_changed : Bool) (s : GameState) :
    (manage_chunks g world_pos_changed s).1.world_pos = s.world_pos ∧
    (manage_chunks g world_pos_changed s).1.chunk_manager.chunk_size =
      s.chunk_manager.chunk_size ∧
    (manage_chunks g world_pos_changed s).1.chunk_manager.render_distance =
      s.chunk_manager.render_distance := by
  cases world_pos_changed
  · exact ⟨rfl, rfl, rfl⟩
  · exact ⟨rfl, rfl, rfl⟩

/-- Claim C3: with the chunk coordinate of the viewer unchanged, the tracker does
not write the resource, so the gated reconciler is the identity and invokes
no mesher; moreover a coordinate resident in the registry is never handed to
spawn_chunk again, and keeps its record as long as it stays required. -/
theorem manage_chunks_idempotent (g : NoiseGet) (s : GameState) (camera : ℚ × ℚ)
    (hx : Int.floor (camera.1 / CHUNK_SIZE) = s.world_pos.chunk_x)
    (hz : Int.floor (camera.2 / CHUNK_SIZE) = s.world_pos.chunk_z) :
    (update_world_position (some camera) s = (s, false) ∧
      manage_chunks g false s = (s, [], [])) ∧
    ∀ p : Int × Int, containsChunk s.chunk_manager.loaded_chunks p = true →
      p ∉ (manage_chunks g true s).2.1 ∧
      (p ∈ requiredChunks s.world_pos.chunk_x s.world_pos.chunk_z
          s.chunk_manager.render_distance →
        lookupChunk (manage_chunks g true s).1.chunk_manager.loaded_chunks p =
          lookupChunk s.chunk_manager.loaded_chunks p) := by
  constructor
  · constructor
    · simp [update_world_position, hx, hz]
    · exact manage_chunks_not_changed g s
  · intro p hp
    simp only [manage_chunks, Bool.not_true, Bool.false_eq_true, if_false]
    have hrem : p ∈ requiredChunks s.world_pos.chunk_x s.world_pos.chunk_z
        s.chunk_manager.render_distance →
        containsChunk (s.chunk_manager.loaded_chunks.filter fun e =>
          decide (e.1 ∈ requiredChunks s.world_pos.chunk_x s.world_pos.chunk_z
            s.chunk_manager.render_distance)) p = true := by
      intro hreq
      show (lookupChunk _ p).isSome = true
      rw [lookupChunk_filter_mem hreq]
      exact hp
    constructor
    · intro hmem
      rw [addMissing_spawned g _ _ _ (nodup_requiredChunks _ _ _),
        List.mem_filter] at hmem
      rw [hrem hmem.1] at hmem
      simp at hmem
    · intro hreq
      rw [addMissing_lookup_of_contains g _ _ _ p (hrem hreq),
        lookupChunk_filter_mem hreq]

/-- Witness for claim C3 at the concrete state with the camera resting at
the origin of its current chunk. -/
theorem manage_chunks_idempotent_witness :
    Int.floor (((0 : ℚ), (0 : ℚ)).1 / CHUNK_SIZE) = sampleState.world_pos.chunk_x ∧
    update_world_position (some (0, 0)) sampleState = (sampleState, false) :=
  ⟨by simp [CHUNK_SIZE, sampleState],
    ((manage_chunks_idempotent zeroNoise sampleState (0, 0)
      (by simp [CHUNK_SIZE, sampleState])
      (by simp [CHUNK_SIZE, sampleState])).1).1⟩

/-- Claim C8: the tracker computes the chunk coordinate with floor toward
negative infinity of position over chunk size, writes nothing when the
computed coordinate equals the stored one, and on x = -1 with chunk size 50
the chunk coordinate is -1, not 0. -/
theorem update_world_position_floor (px pz : ℚ) (s : GameState) :
    ((update_world_position (some (px, pz)) s).1.world_pos.chunk_x =
        Int.floor (px / CHUNK_SIZE) ∧
      (update_world_position (some (px, pz)) s).1.world_pos.chunk_z =
        Int.floor (pz / CHUNK_SIZE)) ∧
    ((Int.floor (px / CHUNK_SIZE) = s.world_pos.chunk_x ∧
        Int.floor (pz / CHUNK_SIZE) = s.world_pos.chunk_z) →
      update_world_position (some (px, pz)) s = (s, false)) ∧
    (Int.floor ((-1 : ℚ) / CHUNK_SIZE) = -1 ∧ (-1 : Int) ≠ 0) := by
  refine ⟨?_, ?_, ?_, by decide⟩
  · simp only [update_world_position]
    by_cases hc : s.world_pos.chunk_x ≠ Int.floor (px / CHUNK_SIZE) ∨
        s.world_pos.chunk_z ≠ Int.floor (pz / CHUNK_SIZE)
    · rw [if_pos hc]
      exact ⟨rfl, rfl⟩
    · rw [if_neg hc]
      push_neg at hc
      exact ⟨hc.1, hc.2⟩
  · rintro ⟨h1, h2⟩
    simp only [update_world_position]
    rw [if_neg]
    push_neg
    exact ⟨h1.symm, h2.symm⟩
  · refine Int.floor_eq_iff.mpr ?_
    rw [CHUNK_SIZE]
    norm_num

/-- Witness for claim C8, applying it at x = -1. -/
theorem update_world_position_floor_witness :
    (update_world_position (some ((-1 : ℚ), 0)) sampleState).1.world_pos.chunk_x =
      Int.floor ((-1 : ℚ) / CHUNK_SIZE) :=
  ((update_world_position_floor (-1) 0 sampleState).1).1

/-- Claim C6: the height-to-color ramp agrees across every stop boundary
(the incoming lerp at factor 1 equals the value at the stop), takes pure
sand at 0.3 (the factor-0 endpoint of the sand-to-grass lerp), pure snow at
4.0, and clamps outside the ramp: sand at -5.0 and 0.0, snow at 10.0. -/
theorem get_terrain_color_ramp :
    get_terrain_color 0.3 = lerp_color sand_color grass_color 0 ∧
    lerp_color sand_color grass_color 0 = sand_color ∧
    get_terrain_color 0.3 = sand_color ∧
    lerp_color sand_color grass_color 1 = get_terrain_color 1.5 ∧
    get_terrain_color 1.5 = grass_color ∧
    lerp_color grass_color rock_color 1 = get_terrain_color 3.0 ∧
    get_terrain_color 3.0 = rock_color ∧
    lerp_color rock_color snow_color 1 = get_terrain_color 4.0 ∧
    get_terrain_color 4.0 = snow_color ∧
    get_terrain_color (-5.0) = sand_color ∧
    get_terrain_color 0.0 = sand_color ∧
    get_terrain_color 10.0 = snow_color := by
  refine ⟨?_, ?_, ?_, ?_, ?_, ?_, ?_, ?_, ?_, ?_, ?_, ?_⟩ <;>
    norm_num [get_terrain_color, lerp_color, clamp01, sand_color, grass_color,
      rock_color, snow_color, Prod.ext_iff]

theorem length_waterSamplePoints (s : Nat) :
    (waterSamplePoints s).length = (s + 1) ^ 2 := by
  rw [waterSamplePoints, List.length_flatMap]
  have h : (List.map (List.length ∘ fun z => List.map (fun x => (x, z)) (List.range (s + 1)))
      (List.range (s + 1))) = List.replicate (s + 1) (s + 1) := by
    refine List.eq_replicate_iff.mpr ⟨by simp, ?_⟩
    intro a ha
    rw [List.mem_map] at ha
    obtain ⟨z, _, rfl⟩ := ha
    simp
  rw [h, List.sum_replicate, smul_eq_mul, sq]

theorem findWaterSample_isSome_iff (g : NoiseGet) (ox oz : ℚ) (s : Nat)
    (l : List (Nat × Nat)) :
    (findWaterSample g ox oz s l).isSome = true ↔
      ∃ p ∈ l, waterSampleHeight g ox oz s p < WATER_LEVEL := by
  induction l with
  | nil => simp [findWaterSample]
  | cons p rest ih =>
    by_cases h : waterSampleHeight g ox oz s p < WATER_LEVEL
    · rw [findWaterSample, if_pos h]
      constructor
      · intro _
        exact ⟨p, List.mem_cons_self p rest, h⟩
      · intro _
        rfl
    · rw [findWaterSample, if_neg h, ih]
      constructor
      · rintro ⟨q, hq, hlt⟩
        exact ⟨q, List.mem_cons_of_mem _ hq, hlt⟩
      · rintro ⟨q, hq, hlt⟩
        rcases List.mem_cons.mp hq with h1 | h2
        · rw [h1] at hlt
          exact absurd hlt h
        · exact ⟨q, h2, hlt⟩

theorem findWaterSample_first (g : NoiseGet) (ox oz : ℚ) (s : Nat) :
    ∀ (l : List (Nat × Nat)) (p : Nat × Nat), findWaterSample g ox oz s l = some p →
      ∃ l1 l2, l = l1 ++ p :: l2 ∧ waterSampleHeight g ox oz s p < WATER_LEVEL ∧
        ∀ q ∈ l1, WATER_LEVEL ≤ waterSampleHeight g ox oz s q := by
  intro l
  induction l with
  | nil => intro p h; simp [findWaterSample] at h
  | cons a rest ih =>
    intro p h
    by_cases ha : waterSampleHeight g ox oz s a < WATER_LEVEL
    · rw [findWaterSample, if_pos ha, Option.some.injEq] at h
      refine ⟨[], rest, by simp [h], by rw [← h]; exact ha, ?_⟩
      intro q hq
      simp at hq
    · rw [findWaterSample, if_neg ha] at h
      obtain ⟨l1, l2, heq, hlt, hall⟩ := ih p h
      refine ⟨a :: l1, l2, by rw [heq]; rfl, hlt, ?_⟩
      intro q hq
      rcases List.mem_cons.mp hq with h1 | h2
      · rw [h1]
        exact le_of_not_lt ha
      · exact hall q h2

/-- Claim C5: the water mesher returns a mesh exactly when one of the
(s+1)^2 grid sample points of the chunk footprint has terrain height
strictly below the water level, returns none otherwise, and the sampling
loop stops at the first sample below the water level: every sample visited
before it is at or above the water level. -/
theorem generate_water_mesh_spec (g : NoiseGet) (ox oz : ℚ) (s : Nat) (_hs : 0 < s) :
    (waterSamplePoints s).length = (s + 1) ^ 2 ∧
    ((generate_water_mesh g ox oz s).isSome = true ↔
      ∃ p ∈ waterSamplePoints s, waterSampleHeight g ox oz s p < WATER_LEVEL) ∧
    (generate_water_mesh g ox oz s = none ↔
      ∀ p ∈ waterSamplePoints s, WATER_LEVEL ≤ waterSampleHeight g ox oz s p) ∧
    ∀ p : Nat × Nat,
      findWaterSample g ox oz s (waterSamplePoints s) = some p →
      ∃ l1 l2, waterSamplePoints s = l1 ++ p :: l2 ∧
        waterSampleHeight g ox oz s p < WATER_LEVEL ∧
        ∀ q ∈ l1, WATER_LEVEL ≤ waterSampleHeight g ox oz s q := by
  have hgen : (generate_water_mesh g ox oz s).isSome =
      (findWaterSample g ox oz s (waterSamplePoints s)).isSome := by
    rw [generate_water_mesh]
    by_cases h : (findWaterSample g ox oz s (waterSamplePoints s)).isSome = true
    · rw [if_pos h, h]
      rfl
    · have hf : (findWaterSample g ox oz s (waterSamplePoints s)).isSome = false := by
        simpa using h
      rw [if_neg h, hf]
      rfl
  refine ⟨length_waterSamplePoints s, ?_, ?_, findWaterSample_first g ox oz s _⟩
  · rw [hgen]
    exact findWaterSample_isSome_iff g ox oz s _
  · constructor
    · intro h p hp
      by_contra hlt
      push_neg at hlt
      have hw : (generate_water_mesh g ox oz s).isSome = true := by
        rw [hgen, findWaterSample_isSome_iff]
        exact ⟨p, hp, hlt⟩
      rw [h] at hw
      simp at hw
    · intro hall
      cases hg : generate_water_mesh g ox oz s with
      | none => rfl
      | some w =>
        have hw : (generate_water_mesh g ox oz s).isSome = true := by
          rw [hg]
          rfl
        rw [hgen, findWaterSample_isSome_iff] at hw
        obtain ⟨p, hp, hlt⟩ := hw
        exact absurd hlt (not_lt.mpr (hall p hp))

/-- Witness for claim C5 at one subdivision. -/
theorem generate_water_mesh_spec_witness :
    0 < 1 ∧ (waterSamplePoints 1).length = (1 + 1) ^ 2 :=
  ⟨by decide, (generate_water_mesh_spec zeroNoise 0 0 1 (by decide)).1⟩



theorem manage_chunks_true_loaded (g : NoiseGet) (s : GameState) :
    (manage_chunks g true s).1.chunk_manager.loaded_chunks =
      (addMissing g
        (requiredChunks s.world_pos.chunk_x s.world_pos.chunk_z
          s.chunk_manager.render_distance)
        (s.chunk_manager.loaded_chunks.filter fun e =>
          decide (e.1 ∈ requiredChunks s.world_pos.chunk_x s.world_pos.chunk_z
            s.chunk_manager.render_distance))
        s.next_entity).1 := by
  simp only [manage_chunks, Bool.not_true, Bool.false_eq_true, if_false]

theorem manage_chunks_true_next (g : NoiseGet) (s : GameState) :
    (manage_chunks g true s).1.next_entity =
      (addMissing g
        (requiredChunks s.world_pos.chunk_x s.world_pos.chunk_z
          s.chunk_manager.render_distance)
        (s.chunk_manager.loaded_chunks.filter fun e =>
          decide (e.1 ∈ requiredChunks s.world_pos.chunk_x s.world_pos.chunk_z
            s.chunk_manager.render_distance))
        s.next_entity).2.1 := by
  simp only [manage_chunks, Bool.not_true, Bool.false_eq_true, if_false]

theorem manage_chunks_true_spawned (g : NoiseGet) (s : GameState) :
    (manage_chunks g true s).2.1 =
      (addMissing g
        (requiredChunks s.world_pos.chunk_x s.world_pos.chunk_z
          s.chunk_manager.render_distance)
        (s.chunk_manager.loaded_chunks.filter fun e =>
          decide (e.1 ∈ requiredChunks s.world_pos.chunk_x s.world_pos.chunk_z
            s.chunk_manager.render_distance))
        s.next_entity).2.2 := by
  simp only [manage_chunks, Bool.not_true, Bool.false_eq_true, if_false]

theorem manage_chunks_true_removed (g : NoiseGet) (s : GameState) :
    (manage_chunks g true s).2.2 =
      ((s.chunk_manager.loaded_chunks.filter fun e =>
        !decide (e.1 ∈ requiredChunks s.world_pos.chunk_x s.world_pos.chunk_z
          s.chunk_manager.render_distance)).map Prod.fst) := by
  simp only [manage_chunks, Bool.not_true, Bool.false_eq_true, if_false]

theorem sampleState_chunk_x : sampleState.world_pos.chunk_x = 0 := rfl

theorem sampleState_chunk_z : sampleState.world_pos.chunk_z = 0 := rfl

theorem sampleState_rd : sampleState.chunk_manager.render_distance = 1 := rfl

theorem sampleState_loaded : sampleState.chunk_manager.loaded_chunks = [] := rfl

theorem sampleState_next : sampleState.next_entity = 0 := rfl

/-- The state after the first reconciliation of the claim C4 scenario, with
the viewer then moved from chunk (0,0) to chunk (1,0): the registry and the
entity allocator are kept, only the WorldPosition resource changes. -/
def movedState (g : NoiseGet) : GameState :=
  GameState.mk (manage_chunks g true sampleState).1.chunk_manager
    (WorldPosition.mk 1 0) (manage_chunks g true sampleState).1.next_entity

theorem movedState_chunk_x (g : NoiseGet) : (movedState g).world_pos.chunk_x = 1 := rfl

theorem movedState_chunk_z (g : NoiseGet) : (movedState g).world_pos.chunk_z = 0 := rfl

theorem movedState_rd (g : NoiseGet) :
    (movedState g).chunk_manager.render_distance = 1 := rfl

theorem movedState_loaded (g : NoiseGet) :
    (movedState g).chunk_manager.loaded_chunks =
      (addMissing g (requiredChunks 0 0 1) [] 0).1 := by
  show (manage_chunks g true sampleState).1.chunk_manager.loaded_chunks = _
  rw [manage_chunks_true_loaded, sampleState_chunk_x, sampleState_chunk_z,
    sampleState_rd, sampleState_loaded, List.filter_nil, sampleState_next]

theorem movedState_next (g : NoiseGet) :
    (movedState g).next_entity = (addMissing g (requiredChunks 0 0 1) [] 0).2.1 := by
  show (manage_chunks g true sampleState).1.next_entity = _
  rw [manage_chunks_true_next, sampleState_chunk_x, sampleState_chunk_z,
    sampleState_rd, sampleState_loaded, List.filter_nil, sampleState_next]

/-- Claim C4: from an empty registry with the viewer at chunk (0,0) and
render distance 1, one reconciliation yields exactly 9 resident chunks;
after the viewer moves to chunk (1,0), the next reconciliation spawns
exactly 3 chunks and removes exactly 3, leaving 9 resident; the overlap of
the two 3x3 windows has 6 coordinates and each of them keeps the record,
entity handles included, it had after the first reconciliation. -/
theorem slide_window_scenario (g : NoiseGet) :
    (manage_chunks g true sampleState).1.chunk_manager.loaded_chunks.length = 9 ∧
    (manage_chunks g true (movedState g)).2.1.length = 3 ∧
    (manage_chunks g true (movedState g)).2.2.length = 3 ∧
    (manage_chunks g true (movedState g)).1.chunk_manager.loaded_chunks.length = 9 ∧
    ((requiredChunks 0 0 1).filter fun k => decide (k ∈ requiredChunks 1 0 1)).length = 6 ∧
    ∀ p : Int × Int, p ∈ requiredChunks 0 0 1 → p ∈ requiredChunks 1 0 1 →
      lookupChunk (manage_chunks g true (movedState g)).1.chunk_manager.loaded_chunks p =
        lookupChunk (manage_chunks g true sampleState).1.chunk_manager.loaded_chunks p := by
  have hkeys1 : (addMissing g (requiredChunks 0 0 1) [] 0).1.map Prod.fst =
      requiredChunks 0 0 1 := by
    rw [addMissing_map_fst, addMissing_spawned g _ _ _ (nodup_requiredChunks 0 0 1)]
    decide
  have hlen1 : (addMissing g (requiredChunks 0 0 1) [] 0).1.length = 9 := by
    have hc := congrArg List.length hkeys1
    rw [List.length_map] at hc
    rw [hc]
    decide
  have hsp2 : (addMissing g (requiredChunks 1 0 1)
      ((addMissing g (requiredChunks 0 0 1) [] 0).1.filter fun e =>
        decide (e.1 ∈ requiredChunks 1 0 1))
      (addMissing g (requiredChunks 0 0 1) [] 0).2.1).2.2 =
      ((requiredChunks 1 0 1).filter fun k => !decide (k ∈ requiredChunks 0 0 1)) := by
    rw [addMissing_spawned g _ _ _ (nodup_requiredChunks 1 0 1)]
    apply List.filter_congr
    intro q hq
    rw [containsChunk_eq_decide_mem, map_fst_filter_mem, hkeys1]
    congr 1
    apply decide_eq_decide.mpr
    rw [List.mem_filter]
    simp [hq]
  have hkeys2 : (addMissing g (requiredChunks 1 0 1)
      ((addMissing g (requiredChunks 0 0 1) [] 0).1.filter fun e =>
        decide (e.1 ∈ requiredChunks 1 0 1))
      (addMissing g (requiredChunks 0 0 1) [] 0).2.1).1.map Prod.fst =
      ((requiredChunks 0 0 1).filter fun k => decide (k ∈ requiredChunks 1 0 1)) ++
        ((requiredChunks 1 0 1).filter fun k => !decide (k ∈ requiredChunks 0 0 1)) := by
    rw [addMissing_map_fst, hsp2, map_fst_filter_mem, hkeys1]
  refine ⟨?_, ?_, ?_, ?_, by decide, ?_⟩
  · rw [manage_chunks_true_loaded g sampleState, sampleState_chunk_x, sampleState_chunk_z,
      sampleState_rd, sampleState_loaded, List.filter_nil, sampleState_next]
    exact hlen1
  · rw [manage_chunks_true_spawned g (movedState g), movedState_chunk_x, movedState_chunk_z,
      movedState_rd, movedState_loaded, movedState_next, hsp2]
    decide
  · rw [manage_chunks_true_removed g (movedState g), movedState_chunk_x, movedState_chunk_z,
      movedState_rd, movedState_loaded, map_fst_filter_not_mem, hkeys1]
    decide
  · rw [manage_chunks_true_loaded g (movedState g), movedState_chunk_x, movedState_chunk_z,
      movedState_rd, movedState_loaded, movedState_next]
    have hc := congrArg List.length hkeys2
    rw [List.length_map] at hc
    rw [hc]
    decide
  · intro p hp00 hp10
    rw [manage_chunks_true_loaded g (movedState g), movedState_chunk_x, movedState_chunk_z,
      movedState_rd, movedState_loaded, movedState_next,
      manage_chunks_true_loaded g sampleState, sampleState_chunk_x, sampleState_chunk_z,
      sampleState_rd, sampleState_loaded, List.filter_nil, sampleState_next]
    have hc1 : containsChunk (addMissing g (requiredChunks 0 0 1) [] 0).1 p = true := by
      rw [containsChunk_eq_decide_mem, hkeys1, decide_eq_true hp00]
    have hrem2 : containsChunk ((addMissing g (requiredChunks 0 0 1) [] 0).1.filter fun e =>
        decide (e.1 ∈ requiredChunks 1 0 1)) p = true := by
      show (lookupChunk _ p).isSome = true
      rw [lookupChunk_filter_mem hp10]
      exact hc1
    rw [addMissing_lookup_of_contains g _ _ _ p hrem2, lookupChunk_filter_mem hp10]
